import Mathlib

/-!
Verification development for the psa-email-service repository.

The TypeScript source is shallowly embedded: strings are modelled as
`List Char` (`Str`), JavaScript string primitives (`trim`, `toLowerCase`,
`indexOf`, first-occurrence `replace`, `split`, truthiness of `''`) are
given explicit executable definitions, stateful services are modelled by
explicit state passing, and external collaborators (the PSA ticketing API,
the send provider, the template renderer) are parameters of the embedded
functions, mirroring how the code calls out to them.  The ASCII fragment
of JavaScript case conversion is modelled; all string constants in the
source are ASCII.
-/

namespace EmailService

/-- Strings are modelled as lists of characters. -/
abbrev Str := List Char

/-- Coerce a Lean string literal to the `Str` model. -/
def str (s : String) : Str := s.data

/-- JavaScript whitespace test, restricted to the ASCII control/space
characters that occur in email headers (tab, LF, VT, FF, CR, space). -/
def wsChar (c : Char) : Bool := c.toNat = 9 ∨ c.toNat = 10 ∨ c.toNat = 11 ∨ c.toNat = 12 ∨ c.toNat = 13 ∨ c.toNat = 32

/-- Model of JavaScript `String.prototype.trim`. -/
def jsTrim (s : Str) : Str := ((s.dropWhile wsChar).reverse.dropWhile wsChar).reverse

/-- Model of JavaScript `toLowerCase` on one character (ASCII range);
`Char.toLower` is exactly the A–Z shift by 32. -/
def jsLower (s : Str) : Str := s.map Char.toLower

/-- JavaScript `a || b` on possibly-missing strings: the empty string is
falsy, so it falls through to `b`. -/
def jsOrS (a b : Option Str) : Option Str :=
  match a with
  | some s => if s = [] then b else some s
  | none => b

/-- JavaScript `a || d` where `d` is a definite string. -/
def jsOrD (a : Option Str) (d : Str) : Str :=
  match a with
  | some s => if s = [] then d else s
  | none => d

/-- Look up a key in a header object (JS property access on the map built
by the header extractors; keys are unique, first binding wins). -/
def lookupStr (hs : List (Str × Str)) (k : Str) : Option Str :=
  (hs.find? (fun p => decide (p.1 = k))).map (fun p => p.2)

/-- Model of `headers[k1] || headers[k2]` followed by a truthiness guard
(`if (value) …`): yields the first non-empty binding, if any. -/
def truthyHdr2 (hs : List (Str × Str)) (k1 k2 : Str) : Option Str :=
  match jsOrS (lookupStr hs k1) (lookupStr hs k2) with
  | some s => if s = [] then none else some s
  | none => none

/-- JavaScript `s.replace(pat, '')` with a *string* pattern: only the
first occurrence is removed. -/
def removeFirst (pat : Str) : Str → Str
  | [] => []
  | c :: rest =>
    if pat.isPrefixOf (c :: rest) then List.drop pat.length (c :: rest)
    else c :: removeFirst pat rest

/-- JavaScript `s.endsWith(t)`. -/
def strEndsWith (s suf : Str) : Bool := suf.reverse.isPrefixOf s.reverse

/-- JavaScript `s.split(/\r?\n/)`: a separator is `\r\n` or a bare `\n`;
a `\r` not followed by `\n` is ordinary content. -/
def splitLines : Str → List Str
  | [] => [[]]
  | '\r' :: '\n' :: rest => [] :: splitLines rest
  | '\n' :: rest => [] :: splitLines rest
  | c :: rest =>
    match splitLines rest with
    | [] => [[c]]
    | l :: ls => (c :: l) :: ls

/-- Auxiliary for `splitWs`: accumulates the current chunk (reversed). -/
def splitWsAux : Str → Str → List Str
  | [], acc => if acc = [] then [] else [acc.reverse]
  | c :: rest, acc =>
    if wsChar c then
      if acc = [] then splitWsAux rest [] else acc.reverse :: splitWsAux rest []
    else splitWsAux rest (c :: acc)

/-- JavaScript `s.split(/\s+/).filter(Boolean)`: the maximal non-whitespace
chunks of `s`. -/
def splitWs (s : Str) : List Str := splitWsAux s []

/-! ## InboundService.parseEmailAddress (src/unnamed/part_006, lines 89–105) -/

/-- Result shape of `parseEmailAddress`. -/
structure ParsedEmailAddress where
  email : Str
  subdomain : Option Str
  baseDomain : Str
deriving DecidableEq, Repr

/-- Embeds `InboundService.parseEmailAddress`: lowercase and trim, split at the
first `@`; if the domain ends with `.<baseDomain>` the subdomain is the
domain with the first occurrence of `.<baseDomain>` removed (JS
`replace`), otherwise `subdomain = null` and `baseDomain` is the whole
domain.  With no `@` the whole lowered input is returned with an empty
base domain. -/
def parseEmailAddress (base : Str) (email : Str) : ParsedEmailAddress :=
  let emailLower := jsLower (jsTrim email)
  match emailLower.findIdx? (fun c => decide (c = '@')) with
  | none => { email := emailLower, subdomain := none, baseDomain := [] }
  | some atIndex =>
    let domain := emailLower.drop (atIndex + 1)
    if strEndsWith domain ('.' :: base) then
      { email := emailLower, subdomain := some (removeFirst ('.' :: base) domain), baseDomain := base }
    else
      { email := emailLower, subdomain := none, baseDomain := domain }

/-- The address parser as §4.2 of the specification words it: when the
domain ends with `.<baseDomain>`, the subdomain is the *prefix of the
domain before that suffix*.  Kept separate from `parseEmailAddress`
(which embeds the source) so the two can be compared. -/
def parseEmailAddressSpec (base : Str) (email : Str) : ParsedEmailAddress :=
  let emailLower := jsLower (jsTrim email)
  match emailLower.findIdx? (fun c => decide (c = '@')) with
  | none => { email := emailLower, subdomain := none, baseDomain := [] }
  | some atIndex =>
    let domain := emailLower.drop (atIndex + 1)
    if strEndsWith domain ('.' :: base) then
      { email := emailLower, subdomain := some (domain.take (domain.length - ('.' :: base).length)), baseDomain := base }
    else
      { email := emailLower, subdomain := none, baseDomain := domain }

/-! ## Header parsing (src/unnamed/part_001, parseEmailHeaders, lines 124–157) -/

/-- Assignment to a JS object key: overwrite in place if the key exists,
otherwise append (JS objects keep first-insertion order). -/
def insertHdr (m : List (Str × Str)) (k v : Str) : List (Str × Str) :=
  if m.any (fun p => decide (p.1 = k)) then
    m.map (fun p => if p.1 = k then (k, v) else p)
  else m ++ [(k, v)]

/-- On a non-continuation line, the new `(currentKey, currentValue)`
state: when the line has a colon at a positive index the key/value are
re-parsed from it, otherwise the pending state is left untouched. -/
def headerKeyStep (line : Str) (st : Str × Str) : Str × Str :=
  match line.findIdx? (fun c => decide (c = ':')) with
  | some i =>
    if i > 0 then (jsTrim (line.take i), jsTrim (line.drop (i + 1)))
    else st
  | none => st

/-- On a non-continuation line, the accumulated map after saving the
pending header (skipped when no key is pending — `if (currentKey)`). -/
def headerSaveStep (st : Str × Str) (acc : List (Str × Str)) : List (Str × Str) :=
  if st.1 = [] then acc else insertHdr acc (jsLower st.1) st.2

/-- The loop body of `parseEmailHeaders` over the split lines, carrying
`(currentKey, currentValue)` and the accumulated map. -/
def parseHeaderLines : List Str → (Str × Str) → List (Str × Str) → List (Str × Str)
  | [], st, acc => headerSaveStep st acc
  | line :: rest, st, acc =>
    if line.head? = some ' ' ∨ line.head? = some '\t' then
      parseHeaderLines rest (st.1, st.2 ++ ' ' :: jsTrim line) acc
    else
      parseHeaderLines rest (headerKeyStep line st) (headerSaveStep st acc)

/-- Embeds `parseEmailHeaders`: split a raw header block on `\r?\n`, unfold
RFC-5322 continuations, return a lowercased-key map.  Empty input returns
the empty map. -/
def parseEmailHeaders (headersString : Str) : List (Str × Str) :=
  if headersString = [] then []
  else parseHeaderLines (splitLines headersString) ([], []) []

/-! ## Ticket matching (src/unnamed/part_006, matchEmailToTicket, lines 127–237) -/

/-- A row of the `EmailMessageId` store. -/
structure MsgIdRec where
  messageId : Str
  tenantId : Str
  ticketId : Str
  commentId : Option Str
deriving DecidableEq, Repr

/-- The four correlation methods, in the order the code tries them. -/
inductive MatchMethod where
  | inReplyTo
  | refsHeader
  | subjectPattern
  | bodyPattern
deriving DecidableEq, Repr

/-- Result of a successful correlation. -/
structure TicketMatch where
  ticketId : Str
  tenantId : Str
  matchMethod : MatchMethod
deriving DecidableEq, Repr

/-- An observable request to the external PSA ticketing API. -/
inductive PsaCall where
  | byNumber (num : Str)
  | createTicket
  | addComment (ticketId : Str)
deriving DecidableEq, Repr

/-- Strip one leading `<` and one trailing `>` (the regex `/^<|>$/g`). -/
def stripAngles (s : Str) : Str :=
  let s1 := if s.head? = some '<' then s.tail else s
  if s1.getLast? = some '>' then s1.dropLast else s1

/-- Embeds `findTicketByMessageId`: clean the Message-ID and find the first store
row with that id scoped to the tenant. -/
def findTicketByMessageId (store : List MsgIdRec) (messageId tenantId : Str) :
    Option (Str × Str) :=
  let cleanId := jsTrim (stripAngles messageId)
  (store.find? (fun r => decide (r.messageId = cleanId ∧ r.tenantId = tenantId))).map
    (fun r => (r.ticketId, r.tenantId))

/-- Does `s` begin with the token `[TKT-dddddd]` (case-insensitive on the
letters)?  If so return the capture group `TKT-dddddd` as it appears. -/
def ticketTokenAt : Str → Option Str
  | '[' :: a :: b :: c :: '-' :: d1 :: d2 :: d3 :: d4 :: d5 :: d6 :: ']' :: _ =>
    if Char.toLower a = 't' ∧ Char.toLower b = 'k' ∧ Char.toLower c = 't' ∧
        d1.isDigit ∧ d2.isDigit ∧ d3.isDigit ∧ d4.isDigit ∧ d5.isDigit ∧ d6.isDigit then
      some [a, b, c, '-', d1, d2, d3, d4, d5, d6]
    else none
  | _ => none

/-- Embeds `parseTicketIdFromText`: leftmost match of `/\[(TKT-\d{6})\]/i`;
empty text short-circuits to no match. -/
def parseTicketIdFromText : Str → Option Str
  | [] => none
  | c :: rest =>
    match ticketTokenAt (c :: rest) with
    | some tok => some tok
    | none => parseTicketIdFromText rest

/-- First Message-ID of a References list that resolves in the store. -/
def firstRefHit (store : List MsgIdRec) (tenantId : Str) : List Str → Option (Str × Str)
  | [] => none
  | mid :: rest =>
    match findTicketByMessageId store (jsTrim mid) tenantId with
    | some r => some r
    | none => firstRefHit store tenantId rest

/-- A normalized inbound email as `InboundService` receives it. -/
structure InboundEmail where
  fromAddr : Str
  toAddr : Str
  cc : Option Str
  subject : Str
  text : Option Str
  html : Option Str
  headers : List (Str × Str)
deriving DecidableEq, Repr

/-- Methods 3 and 4 continued at the body step (shared tail of
`matchEmailToTicket`); `acc` holds the by-number calls already made. -/
def matchBodyStep (byNumber : Str → Str → Option Str) (email : InboundEmail)
    (tenantId : Str) (acc : List PsaCall) : Option TicketMatch × List PsaCall :=
  match parseTicketIdFromText (email.text.getD []) with
  | some num =>
    (match byNumber num tenantId with
     | some tid => (some ⟨tid, tenantId, MatchMethod.bodyPattern⟩, acc ++ [PsaCall.byNumber num])
     | none => (none, acc ++ [PsaCall.byNumber num]))
  | none => (none, acc)

/-- Embeds `InboundService.matchEmailToTicket`: try, in order, In-Reply-To,
References, subject `[TKT-……]` pattern, body pattern; stop at the first
success; return the match (if any) together with the external by-number
lookups performed. -/
def matchEmailToTicket (store : List MsgIdRec) (byNumber : Str → Str → Option Str)
    (email : InboundEmail) (tenantId : Str) : Option TicketMatch × List PsaCall :=
  let m1 : Option TicketMatch :=
    match truthyHdr2 email.headers (str "in-reply-to") (str "In-Reply-To") with
    | some inReplyTo =>
      (findTicketByMessageId store inReplyTo tenantId).map
        (fun p => ⟨p.1, p.2, MatchMethod.inReplyTo⟩)
    | none => none
  match m1 with
  | some r => (some r, [])
  | none =>
    let m2 : Option TicketMatch :=
      match truthyHdr2 email.headers (str "references") (str "References") with
      | some refs =>
        (firstRefHit store tenantId (splitWs refs)).map
          (fun p => ⟨p.1, p.2, MatchMethod.refsHeader⟩)
      | none => none
    match m2 with
    | some r => (some r, [])
    | none =>
      match parseTicketIdFromText email.subject with
      | some num =>
        (match byNumber num tenantId with
         | some tid => (some ⟨tid, tenantId, MatchMethod.subjectPattern⟩, [PsaCall.byNumber num])
         | none => matchBodyStep byNumber email tenantId [PsaCall.byNumber num])
      | none => matchBodyStep byNumber email tenantId []

/-! ## InboundService.processInboundEmail (src/unnamed/part_006, lines 110–121 and 310–451) -/

/-- A `TenantEmailConfig` row, as far as inbound routing reads it. -/
structure TenantCfg where
  tenantId : Str
  domain : Str
deriving DecidableEq, Repr

/-- Embeds `getTenantBySubdomain`: find the first config row whose domain equals
`<subdomain>.<baseDomain>`; return its tenant id and `config.domain ||
domain`. -/
def getTenantBySubdomain (cfgs : List TenantCfg) (base sub : Str) : Option (Str × Str) :=
  let domain := sub ++ '.' :: base
  (cfgs.find? (fun c => decide (c.domain = domain))).map
    (fun c => (c.tenantId, if c.domain = [] then domain else c.domain))

/-- Outcome of one call to the PSA ticketing API (external collaborator):
a 2xx response carrying the created/old id, a non-2xx response with its
status text, or a thrown network error with its message. -/
inductive PsaResp where
  | ok (id : Str)
  | httpErr (statusText : Str)
  | netErr (msg : Str)
deriving DecidableEq, Repr

/-- The PSA ticketing collaborator as the inbound service calls it. -/
structure PsaApi where
  byNumber : Str → Str → Option Str
  createTicket : PsaResp
  addComment : Str → PsaResp

/-- Result shape of `processInboundEmail`. -/
structure ProcResult where
  success : Bool
  ticketId : Option Str
  isNew : Option Bool
  error : Option Str
deriving DecidableEq, Repr

/-- Full observable outcome of `processInboundEmail`: the returned value,
the PSA calls made, and the `EmailMessageId` store afterwards. -/
structure ProcOut where
  result : ProcResult
  calls : List PsaCall
  store : List MsgIdRec
deriving Repr

/-- Embeds `storeMessageId`: append a row with the cleaned Message-ID. -/
def storeMessageId (store : List MsgIdRec) (tenantId ticketId messageId : Str)
    (commentId : Option Str) : List MsgIdRec :=
  store ++ [{ messageId := jsTrim (stripAngles messageId), tenantId := tenantId,
              ticketId := ticketId, commentId := commentId }]

/-- Embeds `createTicketFromEmail`: POST to the ticketing API; on 2xx store the
email's Message-ID (when present and a ticket id came back) and report
`success, isNew := true`; non-2xx and thrown errors become
`success := false` results, never exceptions. -/
def createTicketFromEmail (psa : PsaApi) (store : List MsgIdRec) (email : InboundEmail)
    (tenantId : Str) (matchCalls : List PsaCall) : ProcOut :=
  match psa.createTicket with
  | PsaResp.ok tid =>
    let messageId := truthyHdr2 email.headers (str "message-id") (str "Message-ID")
    let store1 :=
      match messageId with
      | some mid => if tid = [] then store else storeMessageId store tenantId tid mid none
      | none => store
    { result := { success := true, ticketId := some tid, isNew := some true, error := none },
      calls := matchCalls ++ [PsaCall.createTicket], store := store1 }
  | PsaResp.httpErr status =>
    { result := { success := false, ticketId := none, isNew := none,
                  error := some (str "PSA error: " ++ status) },
      calls := matchCalls ++ [PsaCall.createTicket], store := store }
  | PsaResp.netErr msg =>
    { result := { success := false, ticketId := none, isNew := none, error := some msg },
      calls := matchCalls ++ [PsaCall.createTicket], store := store }

/-- Embeds `addCommentToTicket`: POST a comment; on 2xx store the Message-ID
(when present) with the returned comment id. -/
def addCommentToTicket (psa : PsaApi) (store : List MsgIdRec) (email : InboundEmail)
    (ticketId tenantId : Str) (matchCalls : List PsaCall) : ProcOut :=
  match psa.addComment ticketId with
  | PsaResp.ok cid =>
    let messageId := truthyHdr2 email.headers (str "message-id") (str "Message-ID")
    let store1 :=
      match messageId with
      | some mid =>
        storeMessageId store tenantId ticketId mid (if cid = [] then none else some cid)
      | none => store
    { result := { success := true, ticketId := some ticketId, isNew := some false, error := none },
      calls := matchCalls ++ [PsaCall.addComment ticketId], store := store1 }
  | PsaResp.httpErr status =>
    { result := { success := false, ticketId := none, isNew := none,
                  error := some (str "PSA error: " ++ status) },
      calls := matchCalls ++ [PsaCall.addComment ticketId], store := store }
  | PsaResp.netErr msg =>
    { result := { success := false, ticketId := none, isNew := none, error := some msg },
      calls := matchCalls ++ [PsaCall.addComment ticketId], store := store }

/-- Embeds `processInboundEmail`: resolve the tenant from the first `To` address;
report a miss as a `success := false` result without touching the PSA
API; otherwise run the matcher and either add a comment or create a
ticket.  The guard is the JS truthiness test `if (!parsed.subdomain)`,
so an *empty-string* subdomain (e.g. for `x@.skyrack.com`, where
removing `.base` leaves nothing) is also rejected with `Could not
determine tenant from recipient address`. -/
def processInboundEmail (cfgs : List TenantCfg) (store : List MsgIdRec) (psa : PsaApi)
    (base : Str) (email : InboundEmail) : ProcOut :=
  let toAddress := jsTrim (email.toAddr.takeWhile (fun c => decide (c ≠ ',')))
  let parsed := parseEmailAddress base toAddress
  match parsed.subdomain with
  | none =>
    { result := { success := false, ticketId := none, isNew := none,
                  error := some (str "Could not determine tenant from recipient address") },
      calls := [], store := store }
  | some sub =>
    if sub = [] then
      { result := { success := false, ticketId := none, isNew := none,
                    error := some (str "Could not determine tenant from recipient address") },
        calls := [], store := store }
    else
    match getTenantBySubdomain cfgs base sub with
    | none =>
      { result := { success := false, ticketId := none, isNew := none,
                    error := some (str "Tenant not found for subdomain: " ++ sub) },
        calls := [], store := store }
    | some (tenantId, _domain) =>
      match matchEmailToTicket store psa.byNumber email tenantId with
      | (some m, matchCalls) => addCommentToTicket psa store email m.ticketId tenantId matchCalls
      | (none, matchCalls) => createTicketFromEmail psa store email tenantId matchCalls

/-! ## Inbound webhook route (src/unnamed/part_000, router.post('/webhook'), lines 88–227,
and src/unnamed/part_001, router.post('/sendgrid'), lines 25–119) -/

/-- How the `data` field of a parsed `email.received` event presents
itself to the handler: absent or JSON `null` (the logging line
dereferences `emailData.to` with no optional chaining *before* the
`if (!emailData)` check, so this throws a TypeError), present but falsy
and non-nullish (`""`, `0`, `false` — property access on a primitive
succeeds and `!emailData` is true), or a truthy object. -/
inductive WebhookData where
  | nullish
  | falsy
  | obj
deriving DecidableEq, Repr

/-- The request body of the Resend inbound webhook after signature
verification: either JSON that fails to parse (the route's outer `catch`
swallows the throw), or an event `{type, data}`. -/
inductive InboundBody where
  | badJson
  | evt (type : Str) (data : WebhookData)
deriving DecidableEq, Repr

/-- HTTP status returned by `POST /api/inbound/webhook`.  `sigOk` is the
outcome of `verifyWebhookSignature` (HMAC comparison, or `true` when the
secret is unconfigured); `procSuccess` is the outcome of
`processInboundEmail`, which the route acknowledges with `200` either
way; any exception is caught and answered `200`.  In particular, an
`email.received` event with missing or `null` data throws at the
`emailData.to` dereference (part_000 line 133) and is answered `200` by
the catch; the `400` of the `if (!emailData)` check is reachable only
for a present, falsy, non-nullish `data` value. -/
def inboundWebhookStatus (sigOk : Bool) (body : InboundBody) (procSuccess : Bool) : Nat :=
  if sigOk = false then 401
  else
    match body with
    | InboundBody.badJson => 200
    | InboundBody.evt t d =>
      if t ≠ str "email.received" then 200
      else
        match d with
        | WebhookData.nullish => 200
        | WebhookData.falsy => 400
        | WebhookData.obj =>
          match procSuccess with
          | true => 200
          | false => 200

/-- HTTP status returned by `POST /api/inbound/sendgrid`: `200` on both
the success path and the catch-all error path. -/
def sendgridWebhookStatus (processingThrew : Bool) (procSuccess : Bool) : Nat :=
  match processingThrew, procSuccess with
  | true, _ => 200
  | false, _ => 200

/-! ## Delivery queue (src/src/services/queue.service.ts) -/

/-- The `EmailLog.status` values. -/
inductive EStatus where
  | queued
  | sending
  | sent
  | delivered
  | bounced
  | complained
  | failed
deriving DecidableEq, Repr

/-- The fields of an `EmailLog` row that the queue worker and webhook
correlator read and write. -/
structure LogRec where
  status : EStatus
  attempts : Nat
  error : Option Str
  resendId : Option Str
  sentAtSet : Bool
deriving DecidableEq, Repr

/-- The constant `MAX_RETRIES` (queue.service.ts line 16). -/
def maxRetries : Nat := 3

/-- The constant `RETRY_DELAYS` in milliseconds (queue.service.ts line 17). -/
def retryDelays : List Nat := [1000, 5000, 30000]

/-- Maps a Resend event type to the status `handleResendWebhook` writes;
unhandled types return without updating (src/unnamed/part_008,
lines 45–92). -/
def resendEventStatus (t : Str) : Option EStatus :=
  if t = str "email.delivered" then some EStatus.delivered
  else if t = str "email.bounced" then some EStatus.bounced
  else if t = str "email.complained" then some EStatus.complained
  else none

/-- Every `prisma.emailLog.update` the service performs on an existing
row: the worker's `sending` update (which increments `attempts`), its
`sent` update, its retry revert to `queued`, `markFailed`, and the
provider-event status update of `handleResendWebhook`. -/
inductive LogOp where
  | markSending
  | markSent (rid : Str)
  | requeue (err : Str)
  | markFailedOp (err : Str)
  | providerUpdate (eventType : Str)
deriving DecidableEq, Repr

/-- Effect of one `emailLog.update` on the row. -/
def applyLogOp (op : LogOp) (l : LogRec) : LogRec :=
  match op with
  | LogOp.markSending => { l with status := EStatus.sending, attempts := l.attempts + 1 }
  | LogOp.markSent rid => { l with status := EStatus.sent, resendId := some rid, sentAtSet := true }
  | LogOp.requeue err => { l with status := EStatus.queued, error := some err }
  | LogOp.markFailedOp err => { l with status := EStatus.failed, error := some err }
  | LogOp.providerUpdate t =>
    match resendEventStatus t with
    | some s => { l with status := s }
    | none => l

/-- Apply a sequence of updates left to right. -/
def applyLogOps (ops : List LogOp) (l : LogRec) : LogRec :=
  ops.foldl (fun acc op => applyLogOp op acc) l

/-- JavaScript `a || 1` on a number (`0` is falsy). -/
def jsOrNat (a d : Nat) : Nat := if a = 0 then d else a

/-- Observable effect of one `QueueService.sendEmail` call on its log row:
the final row, the status values written to the row in order, whether the
email was re-inserted into the queue, the scheduled backoff delay (if
any), and the webhook event emitted (if any). -/
structure SendStepOut where
  log : LogRec
  writes : List EStatus
  requeued : Bool
  delay : Option Nat
  notified : Option Str
deriving DecidableEq, Repr

/-- Embeds `QueueService.sendEmail` (lines 129–200): re-render (`renderOk`),
mark `sending` and increment `attempts`, call the send provider
(`sendOk`, with `errMsg`/`rid` as its error/id), then branch on success,
retry, or permanent failure exactly as the source does. -/
def sendEmailModel (renderOk sendOk : Bool) (templateName errMsg rid : Str)
    (log : LogRec) : SendStepOut :=
  if renderOk = false then
    { log := applyLogOp (LogOp.markFailedOp (str "Template not found: " ++ templateName)) log,
      writes := [EStatus.failed], requeued := false, delay := none, notified := none }
  else
    let l1 := applyLogOp LogOp.markSending log
    if sendOk then
      { log := applyLogOp (LogOp.markSent rid) l1,
        writes := [EStatus.sending, EStatus.sent], requeued := false, delay := none,
        notified := none }
    else
      let attempts := jsOrNat l1.attempts 1
      if attempts < maxRetries then
        { log := applyLogOp (LogOp.requeue errMsg) l1,
          writes := [EStatus.sending, EStatus.queued], requeued := true,
          delay := some (jsOrNat (retryDelays.getD (attempts - 1) 0) (retryDelays.getD (retryDelays.length - 1) 0)),
          notified := none }
      else
        { log := applyLogOp (LogOp.markFailedOp (jsOrD (some errMsg) (str "Max retries exceeded"))) l1,
          writes := [EStatus.sending, EStatus.failed], requeued := false, delay := none,
          notified := some (str "email.failed") }

/-- The row `enqueue` creates: `status = queued`, `attempts = 0`. -/
def freshLog : LogRec :=
  { status := EStatus.queued, attempts := 0, error := none, resendId := none, sentAtSet := false }

/-- Iterate failing send attempts on one email (render succeeds, the
provider fails every time), as the worker does each time the item
reaches the head of the queue, collecting the status writes and the
emitted webhook events. -/
def failRun : Nat → LogRec → LogRec × List EStatus × List Str
  | 0, l => (l, [], [])
  | n + 1, l =>
    let out := sendEmailModel true false (str "welcome") (str "provider error") [] l
    let rest := failRun n out.log
    (rest.1, out.writes ++ rest.2.1, (out.notified.toList) ++ rest.2.2)

/-- The full status trace of an enqueued, always-failing email: the
`queued` written at creation followed by the worker's writes. -/
def failTrace (n : Nat) : List EStatus := EStatus.queued :: (failRun n freshLog).2.1

/-! ## Enqueue (src/src/services/queue.service.ts, enqueue, lines 39–80,
with template resolution from src/src/services/template.service.ts) -/

/-- An `EmailTemplate` row, as far as resolution reads it. -/
structure TemplateRec where
  name : Str
  tenantId : Option Str
  isActive : Bool
  subject : Str
  htmlBody : Str
  textBody : Option Str
deriving DecidableEq, Repr

/-- Embeds `TemplateService.getTemplate`: tenant-specific active template first,
then the system default (`tenantId = null`). -/
def getTemplate (templates : List TemplateRec) (name : Str) (tenantId : Option Str) :
    Option TemplateRec :=
  match tenantId with
  | some tid =>
    match templates.find? (fun t => decide (t.name = name ∧ t.tenantId = some tid ∧ t.isActive = true)) with
    | some t => some t
    | none => templates.find? (fun t => decide (t.name = name ∧ t.tenantId = none ∧ t.isActive = true))
  | none => templates.find? (fun t => decide (t.name = name ∧ t.tenantId = none ∧ t.isActive = true))

/-- A rendered template. -/
structure RenderedTemplate where
  subject : Str
  html : Str
  text : Str
deriving DecidableEq, Repr

/-- Embeds `TemplateService.getAndRender`: `none` exactly when resolution fails;
rendering itself is the pure substitution collaborator `render` and
cannot fail. -/
def getAndRender (render : TemplateRec → List (Str × Str) → RenderedTemplate)
    (templates : List TemplateRec) (name : Str) (data : List (Str × Str))
    (tenantId : Option Str) : Option RenderedTemplate :=
  (getTemplate templates name tenantId).map (fun t => render t data)

/-- An enqueue request (`Omit<QueuedEmail, 'id'>`). -/
structure EnqueueReq where
  toAddr : Str
  template : Str
  data : List (Str × Str)
  tenantId : Option Str
  fromAddr : Option Str
  replyTo : Option Str
deriving DecidableEq, Repr

/-- A persisted `EmailLog` row as `enqueue` creates it. -/
structure LogRow where
  id : Nat
  toAddr : Str
  fromAddr : Str
  subject : Str
  template : Str
  status : EStatus
  tenantId : Option Str
  attempts : Nat
deriving DecidableEq, Repr

/-- An entry of the in-memory queue. -/
structure QEntry where
  id : Nat
  toAddr : Str
  template : Str
  data : List (Str × Str)
  tenantId : Option Str
  fromAddr : Str
  replyTo : Option Str
deriving DecidableEq, Repr

/-- The queue service's persistent and in-memory state: the `EmailLog`
table (with the store's id generator) and the in-memory queue array. -/
structure QueueState where
  logs : List LogRow
  nextId : Nat
  queue : List QEntry
deriving DecidableEq, Repr

/-- Embeds `QueueService.enqueue`: render first (a miss throws `Template not
found: <name>` before any state is touched), then create the log row
with `status = queued, attempts = 0`, push the in-memory entry, and
return the new row's id. -/
def enqueue (render : TemplateRec → List (Str × Str) → RenderedTemplate)
    (templates : List TemplateRec) (envFrom : Option Str) (req : EnqueueReq)
    (st : QueueState) : Except Str Nat × QueueState :=
  match getAndRender render templates req.template req.data req.tenantId with
  | none => (Except.error (str "Template not found: " ++ req.template), st)
  | some rendered =>
    let fromAddr := jsOrD req.fromAddr (jsOrD envFrom (str "noreply@example.com"))
    let row : LogRow :=
      { id := st.nextId, toAddr := req.toAddr, fromAddr := fromAddr, subject := rendered.subject,
        template := req.template, status := EStatus.queued, tenantId := req.tenantId,
        attempts := 0 }
    let entry : QEntry :=
      { id := st.nextId, toAddr := req.toAddr, template := req.template, data := req.data,
        tenantId := req.tenantId, fromAddr := fromAddr, replyTo := req.replyTo }
    (Except.ok st.nextId,
      { logs := st.logs ++ [row], nextId := st.nextId + 1, queue := st.queue ++ [entry] })

/-! ## Outbound webhook delivery (src/src/services/webhook.service.ts,
attemptWebhookDelivery, lines 72–134) -/

/-- The constant `MAX_WEBHOOK_RETRIES` (webhook.service.ts line 14). -/
def maxWebhookRetries : Nat := 3

/-- The `WebhookDelivery.status` values. -/
inductive WStatus where
  | pending
  | sent
  | failed
deriving DecidableEq, Repr

/-- The fields of a `WebhookDelivery` row the retry loop writes. -/
structure DeliveryRec where
  status : WStatus
  attempts : Nat
  lastError : Option Str
  sentAtSet : Bool
deriving DecidableEq, Repr

/-- Embeds `attemptWebhookDelivery`: POST to the subscriber (`respOk attempt`
tells whether that attempt got a 2xx; `errText attempt` is the error
recorded otherwise); on success mark `sent` with `attempts = attempt`;
on failure record the attempt and error, then either schedule a retry
after `2^attempt` seconds (while `attempt < MAX_WEBHOOK_RETRIES`) or
mark the delivery permanently `failed`.  Returns the final row and the
backoff delays scheduled, in milliseconds. -/
def attemptWebhookDelivery (respOk : Nat → Bool) (errText : Nat → Str)
    (attempt : Nat) (d : DeliveryRec) : DeliveryRec × List Nat :=
  if respOk attempt then
    ({ d with status := WStatus.sent, attempts := attempt, sentAtSet := true }, [])
  else
    let d1 := { d with attempts := attempt, lastError := some (errText attempt) }
    if h : attempt < maxWebhookRetries then
      let rest := attemptWebhookDelivery respOk errText (attempt + 1) d1
      (rest.1, 2 ^ attempt * 1000 :: rest.2)
    else
      ({ d1 with status := WStatus.failed }, [])
termination_by maxWebhookRetries + 1 - attempt
decreasing_by simp only [maxWebhookRetries] at *; omega

/-- Embeds `sendWebhook`: create the delivery row (`pending`, `attempts = 0`)
and start the attempt loop at `attempt = 1`. -/
def sendWebhook (respOk : Nat → Bool) (errText : Nat → Str) : DeliveryRec × List Nat :=
  attemptWebhookDelivery respOk errText 1
    { status := WStatus.pending, attempts := 0, lastError := none, sentAtSet := false }

/-- The fan-out of `notifyEmailEvent` over the configured subscriber
URLs: each URL gets its own delivery row and its own independent retry
loop (`respOf u` is that subscriber's response behaviour). -/
def notifyFanout (urls : List Str) (respOf : Str → Nat → Bool) (errText : Nat → Str) :
    List (DeliveryRec × List Nat) :=
  urls.map (fun u => sendWebhook (respOf u) errText)

/-! ## Helper lemmas -/

theorem toLower_def (c : Char) :
    c.toLower = if 65 ≤ c.toNat ∧ c.toNat ≤ 90 then Char.ofNat (c.toNat + 32) else c := rfl

theorem toNat_toLower (c : Char) :
    c.toLower.toNat = if 65 ≤ c.toNat ∧ c.toNat ≤ 90 then c.toNat + 32 else c.toNat := by
  by_cases h : 65 ≤ c.toNat ∧ c.toNat ≤ 90
  · have hv : (c.toNat + 32).isValidChar := Or.inl (by omega)
    rw [toLower_def, if_pos h, if_pos h]
    unfold Char.ofNat
    rw [dif_pos hv]
    rfl
  · rw [toLower_def, if_neg h, if_neg h]

theorem toNat_toLower_of_upper (c : Char) (h : 65 ≤ c.toNat ∧ c.toNat ≤ 90) :
    c.toLower.toNat = c.toNat + 32 := by
  rw [toNat_toLower, if_pos h]

theorem toLower_of_not_upper (c : Char) (h : ¬(65 ≤ c.toNat ∧ c.toNat ≤ 90)) :
    c.toLower = c := by
  rw [toLower_def, if_neg h]

theorem toNat_injective (c d : Char) (h : c.toNat = d.toNat) : c = d :=
  Char.eq_of_val_eq (UInt32.toNat.inj h)

theorem toLower_eq_at (c : Char) (h : c.toLower = '@') : c = '@' := by
  have h1 := congrArg Char.toNat h
  rw [toNat_toLower] at h1
  by_cases h2 : 65 ≤ c.toNat ∧ c.toNat ≤ 90
  · rw [if_pos h2] at h1
    have h3 : Char.toNat '@' = 64 := rfl
    omega
  · rw [if_neg h2] at h1
    exact toNat_injective c '@' h1

theorem toLower_toLower (c : Char) : c.toLower.toLower = c.toLower := by
  by_cases h : 65 ≤ c.toNat ∧ c.toNat ≤ 90
  · refine toLower_of_not_upper _ ?_
    rw [toNat_toLower_of_upper c h]
    omega
  · rw [toLower_of_not_upper c h, toLower_of_not_upper c h]

theorem jsLower_jsLower (s : Str) : jsLower (jsLower s) = jsLower s := by
  induction s with
  | nil => rfl
  | cons c rest ih =>
    simp only [jsLower, List.map_cons] at *
    rw [toLower_toLower]
    exact congrArg _ ih

theorem mem_jsTrim_of_mem (x : Char) (s : Str) (hx : wsChar x = false) (h : x ∈ s) :
    x ∈ jsTrim s := by
  have step : ∀ l : Str, x ∈ l → x ∈ l.dropWhile wsChar := by
    intro l hl
    have hsplit := List.takeWhile_append_dropWhile (p := wsChar) (l := l)
    rw [← hsplit] at hl
    rcases List.mem_append.mp hl with h1 | h2
    · have := List.mem_takeWhile_imp h1
      rw [hx] at this
      exact absurd this (by simp)
    · exact h2
  unfold jsTrim
  rw [List.mem_reverse]
  exact step _ (by rw [List.mem_reverse]; exact step _ h)

theorem mem_of_mem_jsTrim (x : Char) (s : Str) (h : x ∈ jsTrim s) : x ∈ s := by
  have step : ∀ l : Str, x ∈ l.dropWhile wsChar → x ∈ l := by
    intro l hl
    exact (List.dropWhile_sublist (p := wsChar) (l := l)).subset hl
  unfold jsTrim at h
  rw [List.mem_reverse] at h
  have := step _ h
  rw [List.mem_reverse] at this
  exact step _ this

theorem at_mem_jsLower (s : Str) (h : '@' ∈ jsLower s) : '@' ∈ s := by
  rcases List.mem_map.mp h with ⟨c, hc, hlc⟩
  rw [toLower_eq_at c hlc] at hc
  exact hc

theorem at_mem_jsLower_of_mem (s : Str) (h : '@' ∈ s) : '@' ∈ jsLower s := by
  refine List.mem_map.mpr ⟨'@', h, rfl⟩

theorem findIdx?_at_none (l : Str) (h : '@' ∉ l) :
    l.findIdx? (fun c => decide (c = '@')) = none := by
  rw [List.findIdx?_eq_none_iff]
  intro x hx
  simp only [decide_eq_false_iff_not]
  intro hEq
  exact h (hEq ▸ hx)

theorem findIdx?_decomp (p : Char → Bool) (a b : Str) (x : Char)
    (ha : ∀ c ∈ a, p c = false) (hx : p x = true) :
    (a ++ x :: b).findIdx? p = some a.length := by
  induction a with
  | nil => simp [List.findIdx?_cons, hx]
  | cons c rest ih =>
    have hc : p c = false := ha c (by simp)
    simp only [List.cons_append, List.findIdx?_cons, hc]
    rw [if_neg (by simp [hc])]
    rw [List.findIdx?_start_succ]
    rw [ih (fun d hd => ha d (by simp [hd]))]
    simp

theorem drop_after_marker (a b : Str) (x : Char) :
    (a ++ x :: b).drop (a.length + 1) = b := by
  have h1 : a ++ x :: b = (a ++ [x]) ++ b := by simp
  have h2 : a.length + 1 = (a ++ [x]).length := by simp
  rw [h1, h2, List.drop_left]

theorem take_before_marker (a b : Str) (x : Char) :
    (a ++ x :: b).take a.length = a := by
  rw [List.take_append_of_le_length (by simp)]
  simp

/-! ## C9: the EmailLog attempts counter never decreases -/

/-- C9: every `emailLog.update` the service performs either increments
`attempts` by one (the worker's `sending` update) or leaves it unchanged
(`sent`, retry-requeue, `markFailed`, and the provider-event status
update), hence `attempts` is monotonically non-decreasing along every
operation sequence; `enqueue` creates the row at `attempts = 0`. -/
theorem emailLog_attempts_monotone :
    (∀ (op : LogOp) (l : LogRec),
      (applyLogOp op l).attempts = l.attempts + 1 ∨ (applyLogOp op l).attempts = l.attempts) ∧
    (∀ (ops : List LogOp) (l : LogRec), l.attempts ≤ (applyLogOps ops l).attempts) ∧
    freshLog.attempts = 0 := by
  have step : ∀ (op : LogOp) (l : LogRec),
      (applyLogOp op l).attempts = l.attempts + 1 ∨ (applyLogOp op l).attempts = l.attempts := by
    intro op l
    cases op with
    | markSending => left; rfl
    | markSent rid => right; rfl
    | requeue err => right; rfl
    | markFailedOp err => right; rfl
    | providerUpdate t =>
      right
      show (match resendEventStatus t with
        | some s => { l with status := s }
        | none => l).attempts = l.attempts
      cases resendEventStatus t with
      | some s => rfl
      | none => rfl
  refine ⟨step, ?_, rfl⟩
  intro ops
  induction ops with
  | nil => intro l; exact Nat.le_refl _
  | cons op rest ih =>
    intro l
    have h1 : l.attempts ≤ (applyLogOp op l).attempts := by
      rcases step op l with h | h <;> omega
    calc l.attempts ≤ (applyLogOp op l).attempts := h1
      _ ≤ (applyLogOps rest (applyLogOp op l)).attempts := ih _
      _ = (applyLogOps (op :: rest) l).attempts := rfl

/-! ## C2: retry policy of the delivery queue for an always-failing email -/

/-- C2: an enqueued email whose send fails on every attempt follows the
exact status trace queued → sending → queued → sending → queued →
sending → failed; the worker makes exactly `MAX_RETRIES = 3` attempts
(`attempts` reaches 3 and never exceeds it along the run), the first two
failures re-insert the item into the queue while the third does not, and
the third failure emits exactly one `email.failed` webhook event. -/
theorem queue_retry_trace :
    failTrace 3 = [EStatus.queued, EStatus.sending, EStatus.queued, EStatus.sending,
      EStatus.queued, EStatus.sending, EStatus.failed] ∧
    (failRun 3 freshLog).1.status = EStatus.failed ∧
    (failRun 3 freshLog).1.attempts = 3 ∧
    ((List.range 4).all (fun k => (failRun k freshLog).1.attempts = k)) = true ∧
    maxRetries = 3 ∧
    (sendEmailModel true false (str "welcome") (str "provider error") []
      freshLog).requeued = true ∧
    (sendEmailModel true false (str "welcome") (str "provider error") []
      (failRun 1 freshLog).1).requeued = true ∧
    (sendEmailModel true false (str "welcome") (str "provider error") []
      (failRun 2 freshLog).1).requeued = false ∧
    (failRun 3 freshLog).2.2 = [str "email.failed"] := by
  decide

/-! ## C10: parseEmailAddress on input with no '@' -/

/-- C10: on any input containing no `@`, `parseEmailAddress` does not
throw and returns the lowercased, trimmed input as `email`, a null
subdomain, and the empty string as `baseDomain`. -/
theorem parseEmailAddress_no_at (base s : Str) (h : '@' ∉ s) :
    parseEmailAddress base s =
      { email := jsLower (jsTrim s), subdomain := none, baseDomain := [] } := by
  have h1 : '@' ∉ jsLower (jsTrim s) := by
    intro hmem
    exact h (mem_of_mem_jsTrim _ _ (at_mem_jsLower _ hmem))
  simp only [parseEmailAddress]
  rw [findIdx?_at_none _ h1]

/-- Witness for C10 at a concrete input. -/
theorem parseEmailAddress_no_at_w :
    ('@' ∉ str " PlainAddress ") ∧
    parseEmailAddress (str "skyrack.com") (str " PlainAddress ") =
      { email := str "plainaddress", subdomain := none, baseDomain := [] } := by
  refine ⟨by decide, ?_⟩
  rw [parseEmailAddress_no_at (str "skyrack.com") (str " PlainAddress ") (by decide)]
  decide

/-! ## C3: HTTP statuses of the inbound webhook endpoints -/

/-- C3 counterexample: a correctly signed `email.received` event whose
`data` field is present but falsy and non-nullish (`""`, `0`, `false`)
is answered `400`, not `200`, for both outcomes of the processing flag —
refuting "200 for every outcome other than a signature failure".  A
*missing or null* `data` field, by contrast, throws at the
`emailData.to` dereference and is answered `200` by the catch. -/
theorem inbound_webhook_falsy_data_400 :
    inboundWebhookStatus true (InboundBody.evt (str "email.received") WebhookData.falsy) true = 400 ∧
    inboundWebhookStatus true (InboundBody.evt (str "email.received") WebhookData.falsy) false = 400 ∧
    inboundWebhookStatus true (InboundBody.evt (str "email.received") WebhookData.nullish) true = 200 ∧
    inboundWebhookStatus true (InboundBody.evt (str "email.received") WebhookData.nullish) false = 200 ∧
    (400 : Nat) ≠ 200 := by
  decide

/-- C3 as amended: the inbound webhook answers `401` exactly on signature
verification failure, `400` exactly on a verified `email.received` event
whose `data` field is present but falsy and non-nullish, and `200` in
every other case — malformed JSON, ignored event types, an
`email.received` event with missing/null `data` (whose dereference
throws into the catch), and both processing outcomes; the SendGrid
route answers `200` unconditionally. -/
theorem inbound_webhook_statuses (sig : Bool) (body : InboundBody) (ok : Bool) :
    (sig = false → inboundWebhookStatus sig body ok = 401) ∧
    (sig = true → body ≠ InboundBody.evt (str "email.received") WebhookData.falsy →
      inboundWebhookStatus sig body ok = 200) ∧
    (sig = true →
      inboundWebhookStatus sig (InboundBody.evt (str "email.received") WebhookData.falsy) ok = 400) ∧
    (∀ threw : Bool, sendgridWebhookStatus threw ok = 200) := by
  refine ⟨?_, ?_, ?_, ?_⟩
  · intro h; subst h; rfl
  · intro hs hb
    subst hs
    cases body with
    | badJson => rfl
    | evt t d =>
      by_cases ht : t = str "email.received"
      · subst ht
        cases d with
        | nullish => cases ok <;> decide
        | falsy => exact absurd rfl hb
        | obj => cases ok <;> decide
      · cases ok <;> simp [inboundWebhookStatus, ht]
  · intro hs; subst hs; rfl
  · intro threw; cases threw <;> rfl

/-- Witness for C3's amended statement at concrete inputs, including the
missing/null-data path that throws and is still answered `200`. -/
theorem inbound_webhook_statuses_w :
    inboundWebhookStatus false InboundBody.badJson true = 401 ∧
    inboundWebhookStatus true (InboundBody.evt (str "email.opened") WebhookData.obj) false = 200 ∧
    inboundWebhookStatus true (InboundBody.evt (str "email.received") WebhookData.nullish) false = 200 ∧
    inboundWebhookStatus true (InboundBody.evt (str "email.received") WebhookData.falsy) false = 400 ∧
    sendgridWebhookStatus true false = 200 := by
  refine ⟨(inbound_webhook_statuses false InboundBody.badJson true).1 rfl,
    (inbound_webhook_statuses true (InboundBody.evt (str "email.opened") WebhookData.obj) false).2.1
      rfl (by decide),
    (inbound_webhook_statuses true (InboundBody.evt (str "email.received") WebhookData.nullish) false).2.1
      rfl (by decide),
    (inbound_webhook_statuses true (InboundBody.evt (str "email.received") WebhookData.falsy) false).2.2.1 rfl,
    (inbound_webhook_statuses true InboundBody.badJson false).2.2.2 true⟩

/-! ## C1: the ticket matcher stops at the first successful method -/

/-- C1: whenever the (truthy) In-Reply-To header resolves in the
Message-ID store for the tenant, `matchEmailToTicket` returns that
ticket with matchMethod `in-reply-to`, for *every* behaviour of the
ticket-by-number collaborator and every subject/body/References content:
the later methods are never consulted (no by-number call is made). -/
theorem match_first_method_wins (store : List MsgIdRec) (byNumber : Str → Str → Option Str)
    (email : InboundEmail) (tenantId tid ttid irt : Str)
    (h1 : truthyHdr2 email.headers (str "in-reply-to") (str "In-Reply-To") = some irt)
    (h2 : findTicketByMessageId store irt tenantId = some (tid, ttid)) :
    matchEmailToTicket store byNumber email tenantId =
      (some { ticketId := tid, tenantId := ttid, matchMethod := MatchMethod.inReplyTo }, []) := by
  simp only [matchEmailToTicket, h1, h2, Option.map_some']

/-- Witness for C1: the In-Reply-To header resolves to ticket `TA` while
the subject pattern would resolve to a different ticket `TB`; the result
is `TA` by `in-reply-to` and no by-number lookup happens. -/
theorem match_first_method_wins_w :
    matchEmailToTicket [⟨str "m1", str "t1", str "TA", none⟩] (fun _ _ => some (str "TB"))
      { fromAddr := str "user@elsewhere.com", toAddr := str "support@deskside.skyrack.com",
        cc := none, subject := str "Re: [TKT-000011] printer", text := none, html := none,
        headers := [(str "in-reply-to", str "<m1>")] } (str "t1") =
      (some { ticketId := str "TA", tenantId := str "t1", matchMethod := MatchMethod.inReplyTo }, []) ∧
    parseTicketIdFromText (str "Re: [TKT-000011] printer") = some (str "TKT-000011") ∧
    (fun (_ _ : Str) => some (str "TB")) (str "TKT-000011") (str "t1") = some (str "TB") ∧
    str "TB" ≠ str "TA" :=
  ⟨match_first_method_wins [⟨str "m1", str "t1", str "TA", none⟩] (fun _ _ => some (str "TB"))
      { fromAddr := str "user@elsewhere.com", toAddr := str "support@deskside.skyrack.com",
        cc := none, subject := str "Re: [TKT-000011] printer", text := none, html := none,
        headers := [(str "in-reply-to", str "<m1>")] }
      (str "t1") (str "TA") (str "t1") (str "<m1>") (by decide) (by decide),
   by decide, rfl, by decide⟩

/-! ## C4: inbound emails whose recipient resolves to no tenant -/

/-- C4 counterexample: a recipient outside the base domain yields
`success := false` with error text `Could not determine tenant from
recipient address` — not the literal `tenant not found` object the claim
states — and a missing-tenant subdomain yields `Tenant not found for
subdomain: ghost`; in both cases no PSA call is made.  The last conjunct
exercises the truthiness guard: `x@.skyrack.com` parses to the *empty*
subdomain, which `if (!parsed.subdomain)` also rejects with the
could-not-determine error. -/
theorem tenant_miss_error_text :
    (processInboundEmail [] [] ⟨fun _ _ => some (str "TB"), PsaResp.ok (str "T"), fun _ => PsaResp.ok (str "C")⟩
        (str "skyrack.com")
        { fromAddr := str "u@a.com", toAddr := str "user@other.com", cc := none,
          subject := str "hi", text := none, html := none, headers := [] }).result =
      { success := false, ticketId := none, isNew := none,
        error := some (str "Could not determine tenant from recipient address") } ∧
    some (str "Could not determine tenant from recipient address") ≠ some (str "tenant not found") ∧
    (processInboundEmail [] [] ⟨fun _ _ => some (str "TB"), PsaResp.ok (str "T"), fun _ => PsaResp.ok (str "C")⟩
        (str "skyrack.com")
        { fromAddr := str "u@a.com", toAddr := str "user@other.com", cc := none,
          subject := str "hi", text := none, html := none, headers := [] }).calls = [] ∧
    (processInboundEmail [] [] ⟨fun _ _ => some (str "TB"), PsaResp.ok (str "T"), fun _ => PsaResp.ok (str "C")⟩
        (str "skyrack.com")
        { fromAddr := str "u@a.com", toAddr := str "user@ghost.skyrack.com", cc := none,
          subject := str "hi", text := none, html := none, headers := [] }).result.error =
      some (str "Tenant not found for subdomain: ghost") ∧
    some (str "Tenant not found for subdomain: ghost") ≠ some (str "tenant not found") ∧
    (processInboundEmail [] [] ⟨fun _ _ => some (str "TB"), PsaResp.ok (str "T"), fun _ => PsaResp.ok (str "C")⟩
        (str "skyrack.com")
        { fromAddr := str "u@a.com", toAddr := str "x@.skyrack.com", cc := none,
          subject := str "hi", text := none, html := none, headers := [] }).result.error =
      some (str "Could not determine tenant from recipient address") := by
  decide

/-- C4 as amended: when tenant resolution from the first `To` address
fails — a falsy subdomain (none, or the empty string, both rejected by
the JS truthiness guard `if (!parsed.subdomain)`), or no tenant
configured for a non-empty subdomain — `processInboundEmail` returns
(it does not throw) a `success := false` result whose error is `Could
not determine tenant from recipient address` respectively `Tenant not
found for subdomain: <sub>`, with no call to the PSA ticketing
collaborator and the Message-ID store untouched. -/
theorem processInboundEmail_tenant_miss (cfgs : List TenantCfg) (store : List MsgIdRec)
    (psa : PsaApi) (base : Str) (email : InboundEmail) :
    ((parseEmailAddress base (jsTrim (email.toAddr.takeWhile (fun c => decide (c ≠ ','))))).subdomain = none ∨
     (parseEmailAddress base (jsTrim (email.toAddr.takeWhile (fun c => decide (c ≠ ','))))).subdomain = some [] →
      processInboundEmail cfgs store psa base email =
        { result := { success := false, ticketId := none, isNew := none,
                      error := some (str "Could not determine tenant from recipient address") },
          calls := [], store := store }) ∧
    (∀ sub,
      (parseEmailAddress base (jsTrim (email.toAddr.takeWhile (fun c => decide (c ≠ ','))))).subdomain = some sub →
      sub ≠ [] →
      getTenantBySubdomain cfgs base sub = none →
      processInboundEmail cfgs store psa base email =
        { result := { success := false, ticketId := none, isNew := none,
                      error := some (str "Tenant not found for subdomain: " ++ sub) },
          calls := [], store := store }) := by
  constructor
  · intro h
    rcases h with h | h
    · simp only [processInboundEmail, h]
    · simp only [processInboundEmail, h]
      rw [if_pos trivial]
  · intro sub h1 hne h2
    simp only [processInboundEmail, h1]
    rw [if_neg hne]
    simp only [h2]

/-- Witness for C4's amended statement at concrete inputs: a recipient
outside the base domain, one with an empty subdomain
(`x@.skyrack.com`), and one whose subdomain has no tenant. -/
theorem processInboundEmail_tenant_miss_w :
    processInboundEmail [] [] ⟨fun _ _ => none, PsaResp.ok (str "T"), fun _ => PsaResp.ok (str "C")⟩
        (str "skyrack.com")
        { fromAddr := str "u@a.com", toAddr := str "user@other.com", cc := none,
          subject := str "hi", text := none, html := none, headers := [] } =
      { result := { success := false, ticketId := none, isNew := none,
                      error := some (str "Could not determine tenant from recipient address") },
        calls := [], store := [] } ∧
    processInboundEmail [] [] ⟨fun _ _ => none, PsaResp.ok (str "T"), fun _ => PsaResp.ok (str "C")⟩
        (str "skyrack.com")
        { fromAddr := str "u@a.com", toAddr := str "x@.skyrack.com", cc := none,
          subject := str "hi", text := none, html := none, headers := [] } =
      { result := { success := false, ticketId := none, isNew := none,
                      error := some (str "Could not determine tenant from recipient address") },
        calls := [], store := [] } ∧
    processInboundEmail [] [] ⟨fun _ _ => none, PsaResp.ok (str "T"), fun _ => PsaResp.ok (str "C")⟩
        (str "skyrack.com")
        { fromAddr := str "u@a.com", toAddr := str "user@ghost.skyrack.com", cc := none,
          subject := str "hi", text := none, html := none, headers := [] } =
      { result := { success := false, ticketId := none, isNew := none,
                      error := some (str "Tenant not found for subdomain: " ++ str "ghost") },
        calls := [], store := [] } :=
  ⟨(processInboundEmail_tenant_miss [] [] _ (str "skyrack.com") _).1 (Or.inl (by decide)),
   (processInboundEmail_tenant_miss [] [] _ (str "skyrack.com") _).1 (Or.inr (by decide)),
   (processInboundEmail_tenant_miss [] [] _ (str "skyrack.com") _).2 (str "ghost")
     (by decide) (by decide) (by decide)⟩

/-! ## C5: outbound webhook retry policy -/

/-- C5 counterexample: for a subscriber failing every attempt, the
scheduled backoff delays are `[2000 ms, 4000 ms]` — the 8-second delay
of the claim is never scheduled, because the third failed attempt is
terminal; the record ends `failed` after 3 attempts in total. -/
theorem webhook_delays_cex :
    (sendWebhook (fun _ => false) (fun _ => str "HTTP 500")).2 = [2000, 4000] ∧
    (sendWebhook (fun _ => false) (fun _ => str "HTTP 500")).2 ≠ [2000, 4000, 8000] ∧
    ((8000 : Nat) ∉ (sendWebhook (fun _ => false) (fun _ => str "HTTP 500")).2) ∧
    (sendWebhook (fun _ => false) (fun _ => str "HTTP 500")).1.attempts = 3 ∧
    (sendWebhook (fun _ => false) (fun _ => str "HTTP 500")).1.status = WStatus.failed := by
  have h : sendWebhook (fun _ => false) (fun _ => str "HTTP 500") =
      ({ status := WStatus.failed, attempts := 3, lastError := some (str "HTTP 500"),
         sentAtSet := false }, [2000, 4000]) := by
    simp [sendWebhook, attemptWebhookDelivery, maxWebhookRetries]
  rw [h]
  exact ⟨rfl, by decide, by decide, rfl, rfl⟩

/-- C5 as amended: an always-failing subscriber is attempted
`MAX_WEBHOOK_RETRIES = 3` times in total, with exponential backoff of
`2^attempt` seconds scheduled after each non-terminal failure — delays
2 s then 4 s, the third failure being terminal — and the delivery record
ends `failed` with `attempts = 3`; a subscriber answering 2xx on the
first attempt ends `sent` with `attempts = 1` and no delays; in a
two-subscriber fan-out each URL gets its own delivery record and the two
outcomes are exactly these, independently. -/
theorem webhook_retry_policy (respOk : Nat → Bool) (errText : Nat → Str) :
    ((∀ n, respOk n = false) →
      sendWebhook respOk errText =
        ({ status := WStatus.failed, attempts := 3, lastError := some (errText 3),
           sentAtSet := false }, [2000, 4000])) ∧
    (respOk 1 = true →
      sendWebhook respOk errText =
        ({ status := WStatus.sent, attempts := 1, lastError := none, sentAtSet := true }, [])) ∧
    (∀ (u1 u2 : Str) (respOf : Str → Nat → Bool),
      (∀ n, respOf u1 n = false) → respOf u2 1 = true →
      notifyFanout [u1, u2] respOf errText =
        [({ status := WStatus.failed, attempts := 3, lastError := some (errText 3),
            sentAtSet := false }, [2000, 4000]),
         ({ status := WStatus.sent, attempts := 1, lastError := none, sentAtSet := true }, [])]) := by
  have hfail : ∀ (ok : Nat → Bool), (∀ n, ok n = false) →
      sendWebhook ok errText =
        ({ status := WStatus.failed, attempts := 3, lastError := some (errText 3),
           sentAtSet := false }, [2000, 4000]) := by
    intro ok h
    simp [sendWebhook, attemptWebhookDelivery, maxWebhookRetries, h]
  have hok : ∀ (ok : Nat → Bool), ok 1 = true →
      sendWebhook ok errText =
        ({ status := WStatus.sent, attempts := 1, lastError := none, sentAtSet := true }, []) := by
    intro ok h
    simp [sendWebhook, attemptWebhookDelivery, h]
  refine ⟨hfail respOk, hok respOk, ?_⟩
  intro u1 u2 respOf h1 h2
  simp only [notifyFanout, List.map]
  rw [hfail _ h1, hok _ h2]

/-- Witness for C5's amended statement at concrete subscriber behaviours. -/
theorem webhook_retry_policy_w :
    sendWebhook (fun _ => false) (fun _ => str "HTTP 500") =
      ({ status := WStatus.failed, attempts := 3, lastError := some (str "HTTP 500"),
         sentAtSet := false }, [2000, 4000]) ∧
    sendWebhook (fun _ => true) (fun _ => str "HTTP 500") =
      ({ status := WStatus.sent, attempts := 1, lastError := none, sentAtSet := true }, []) ∧
    notifyFanout [str "https://cp.example/hook", str "https://psa.example/hook"]
        (fun u => fun _ => decide (u = str "https://psa.example/hook")) (fun _ => str "HTTP 500") =
      [({ status := WStatus.failed, attempts := 3, lastError := some (str "HTTP 500"),
          sentAtSet := false }, [2000, 4000]),
       ({ status := WStatus.sent, attempts := 1, lastError := none, sentAtSet := true }, [])] :=
  ⟨(webhook_retry_policy (fun _ => false) (fun _ => str "HTTP 500")).1 (fun _ => rfl),
   (webhook_retry_policy (fun _ => true) (fun _ => str "HTTP 500")).2.1 rfl,
   (webhook_retry_policy (fun _ => false) (fun _ => str "HTTP 500")).2.2
     (str "https://cp.example/hook") (str "https://psa.example/hook")
     (fun u => fun _ => decide (u = str "https://psa.example/hook"))
     (fun _ => rfl) rfl⟩

/-! ## C6: parseEmailAddress splits at the first '@' and removes the
first occurrence of the base-domain suffix -/

/-- C6 counterexample: when `.base` occurs twice in the domain, the code
removes the *first* occurrence (JS `replace`), so the subdomain is
`x.y.skyrack.com`, while the claim's "prefix before that suffix" reading
(`parseEmailAddressSpec`) gives `x.skyrack.com.y`; the two disagree. -/
theorem parse_address_double_base_cex :
    (parseEmailAddress (str "skyrack.com") (str "a@x.skyrack.com.y.skyrack.com")).subdomain =
      some (str "x.y.skyrack.com") ∧
    (parseEmailAddressSpec (str "skyrack.com") (str "a@x.skyrack.com.y.skyrack.com")).subdomain =
      some (str "x.skyrack.com.y") ∧
    str "x.y.skyrack.com" ≠ str "x.skyrack.com.y" := by
  decide

/-- C6 as amended: for every address containing `@`, the parser
lowercases and trims the input and splits at the *first* `@`; when the
domain ends with `.<baseDomain>` the subdomain is the domain with the
first occurrence of `.<baseDomain>` removed (which is the prefix before
the suffix whenever `.<baseDomain>` occurs only once), and otherwise the
subdomain is null and `baseDomain` is the whole domain. -/
theorem parseEmailAddress_split (base s loc dom : Str)
    (h1 : jsLower (jsTrim s) = loc ++ '@' :: dom) (h2 : '@' ∉ loc) :
    parseEmailAddress base s =
      if strEndsWith dom ('.' :: base) then
        { email := loc ++ '@' :: dom, subdomain := some (removeFirst ('.' :: base) dom),
          baseDomain := base }
      else { email := loc ++ '@' :: dom, subdomain := none, baseDomain := dom } := by
  have hf : (loc ++ '@' :: dom).findIdx? (fun c => decide (c = '@')) = some loc.length := by
    refine findIdx?_decomp _ loc dom '@' ?_ (by decide)
    intro c hc
    simp only [decide_eq_false_iff_not]
    intro hEq
    exact h2 (hEq ▸ hc)
  simp only [parseEmailAddress, h1, hf]
  rw [drop_after_marker]

/-- Witness for C6's amended statement at a concrete address. -/
theorem parseEmailAddress_split_w :
    (jsLower (jsTrim (str " A@x.skyrack.com ")) = str "a" ++ '@' :: str "x.skyrack.com") ∧
    parseEmailAddress (str "skyrack.com") (str " A@x.skyrack.com ") =
      (if strEndsWith (str "x.skyrack.com") ('.' :: str "skyrack.com") then
        { email := str "a" ++ '@' :: str "x.skyrack.com",
          subdomain := some (removeFirst ('.' :: str "skyrack.com") (str "x.skyrack.com")),
          baseDomain := str "skyrack.com" }
      else { email := str "a" ++ '@' :: str "x.skyrack.com", subdomain := none,
             baseDomain := str "x.skyrack.com" }) ∧
    removeFirst ('.' :: str "skyrack.com") (str "x.skyrack.com") = str "x" :=
  ⟨by decide,
   parseEmailAddress_split (str "skyrack.com") (str " A@x.skyrack.com ")
     (str "a") (str "x.skyrack.com") (by decide) (by decide),
   by decide⟩

/-! ## C7: the enqueue contract -/

/-- C7: when the template cannot be resolved, `enqueue` raises the
synchronous `Template not found: <name>` error and the state is returned
unchanged (no log row, no queue entry); when it resolves, `enqueue`
appends exactly one `EmailLog` row with `status = queued, attempts = 0`
and id `st.nextId`, appends exactly one in-memory queue entry with the
same id, leaves the existing rows and entries untouched, and returns the
new row's id. -/
theorem enqueue_contract (render : TemplateRec → List (Str × Str) → RenderedTemplate)
    (templates : List TemplateRec) (envFrom : Option Str) (req : EnqueueReq) (st : QueueState) :
    (getTemplate templates req.template req.tenantId = none →
      enqueue render templates envFrom req st =
        (Except.error (str "Template not found: " ++ req.template), st)) ∧
    (∀ tpl, getTemplate templates req.template req.tenantId = some tpl →
      (enqueue render templates envFrom req st).1 = Except.ok st.nextId ∧
      (enqueue render templates envFrom req st).2.nextId = st.nextId + 1 ∧
      (enqueue render templates envFrom req st).2.logs.take st.logs.length = st.logs ∧
      (enqueue render templates envFrom req st).2.queue.take st.queue.length = st.queue ∧
      ((enqueue render templates envFrom req st).2.logs.getLast?).map
          (fun r => (r.id, r.status, r.attempts, r.template, r.toAddr)) =
        some (st.nextId, EStatus.queued, 0, req.template, req.toAddr) ∧
      ((enqueue render templates envFrom req st).2.queue.getLast?).map (fun e => e.id) =
        some st.nextId ∧
      (enqueue render templates envFrom req st).2.logs.length = st.logs.length + 1 ∧
      (enqueue render templates envFrom req st).2.queue.length = st.queue.length + 1) := by
  constructor
  · intro h
    simp only [enqueue, getAndRender, h, Option.map_none']
  · intro tpl h
    have he : enqueue render templates envFrom req st =
        (Except.ok st.nextId,
         QueueState.mk
           (st.logs ++ [LogRow.mk st.nextId req.toAddr
             (jsOrD req.fromAddr (jsOrD envFrom (str "noreply@example.com")))
             (render tpl req.data).subject req.template EStatus.queued req.tenantId 0])
           (st.nextId + 1)
           (st.queue ++ [QEntry.mk st.nextId req.toAddr req.template req.data req.tenantId
             (jsOrD req.fromAddr (jsOrD envFrom (str "noreply@example.com")))
             req.replyTo])) := by
      simp only [enqueue, getAndRender, h, Option.map_some']
    rw [he]
    refine ⟨rfl, rfl, List.take_left st.logs _, List.take_left st.queue _, ?_, ?_, ?_, ?_⟩
    · rw [List.getLast?_concat]
      rfl
    · rw [List.getLast?_concat]
      rfl
    · simp
    · simp

/-- Witness for C7 at concrete template stores: an empty store raises the
error and leaves the state unchanged; a one-template store appends the
row and entry and returns id 5. -/
theorem enqueue_contract_w :
    enqueue (fun t _ => ⟨t.subject, t.htmlBody, []⟩) [] none
        { toAddr := str "a@x.com", template := str "welcome", data := [], tenantId := none,
          fromAddr := none, replyTo := none }
        { logs := [], nextId := 5, queue := [] } =
      (Except.error (str "Template not found: " ++ str "welcome"),
       { logs := [], nextId := 5, queue := [] }) ∧
    (enqueue (fun t _ => ⟨t.subject, t.htmlBody, []⟩)
        [{ name := str "welcome", tenantId := none, isActive := true, subject := str "Hi",
           htmlBody := str "<b>Hi</b>", textBody := none }] none
        { toAddr := str "a@x.com", template := str "welcome", data := [], tenantId := none,
          fromAddr := none, replyTo := none }
        { logs := [], nextId := 5, queue := [] }).1 = Except.ok 5 ∧
    ((enqueue (fun t _ => ⟨t.subject, t.htmlBody, []⟩)
        [{ name := str "welcome", tenantId := none, isActive := true, subject := str "Hi",
           htmlBody := str "<b>Hi</b>", textBody := none }] none
        { toAddr := str "a@x.com", template := str "welcome", data := [], tenantId := none,
          fromAddr := none, replyTo := none }
        { logs := [], nextId := 5, queue := [] }).2.logs.getLast?).map
      (fun r => (r.id, r.status, r.attempts, r.template, r.toAddr)) =
      some (5, EStatus.queued, 0, str "welcome", str "a@x.com") :=
  ⟨(enqueue_contract (fun t _ => ⟨t.subject, t.htmlBody, []⟩) [] none
      { toAddr := str "a@x.com", template := str "welcome", data := [], tenantId := none,
        fromAddr := none, replyTo := none }
      { logs := [], nextId := 5, queue := [] }).1 (by decide),
   ((enqueue_contract (fun t _ => ⟨t.subject, t.htmlBody, []⟩)
      [{ name := str "welcome", tenantId := none, isActive := true, subject := str "Hi",
         htmlBody := str "<b>Hi</b>", textBody := none }] none
      { toAddr := str "a@x.com", template := str "welcome", data := [], tenantId := none,
        fromAddr := none, replyTo := none }
      { logs := [], nextId := 5, queue := [] }).2
      { name := str "welcome", tenantId := none, isActive := true, subject := str "Hi",
        htmlBody := str "<b>Hi</b>", textBody := none } (by decide)).1,
   ((enqueue_contract (fun t _ => ⟨t.subject, t.htmlBody, []⟩)
      [{ name := str "welcome", tenantId := none, isActive := true, subject := str "Hi",
         htmlBody := str "<b>Hi</b>", textBody := none }] none
      { toAddr := str "a@x.com", template := str "welcome", data := [], tenantId := none,
        fromAddr := none, replyTo := none }
      { logs := [], nextId := 5, queue := [] }).2
      { name := str "welcome", tenantId := none, isActive := true, subject := str "Hi",
        htmlBody := str "<b>Hi</b>", textBody := none } (by decide)).2.2.2.2.1⟩

/-! ## C8: the header parser -/

theorem splitLines_other (c : Char) (b : Str) (h1 : c ≠ '\n') (h2 : c ≠ '\r') :
    splitLines (c :: b) =
      (match splitLines b with
       | [] => [[c]]
       | l :: ls => (c :: l) :: ls) := by
  rw [splitLines.eq_def]
  split
  · next heq => exact absurd heq (by simp)
  · next rest heq =>
    injection heq with hh _
    exact absurd hh h2
  · next rest heq =>
    injection heq with hh _
    exact absurd hh h1
  · next c2 rest hne1 hne2 heq =>
    injection heq with hh ht
    subst hh
    subst ht
    rfl

theorem splitLines_no_nl (a : Str) (h : ∀ c ∈ a, c ≠ '\n' ∧ c ≠ '\r') :
    splitLines a = [a] := by
  induction a with
  | nil => rfl
  | cons c rest ih =>
    have hc := h c (by simp)
    have hrest := ih (fun d hd => h d (by simp [hd]))
    rw [splitLines_other c rest hc.1 hc.2, hrest]

theorem splitLines_append (a b : Str) (h : ∀ c ∈ a, c ≠ '\n' ∧ c ≠ '\r') :
    splitLines (a ++ '\n' :: b) = a :: splitLines b := by
  induction a with
  | nil =>
    show splitLines ('\n' :: b) = [] :: splitLines b
    rfl
  | cons c rest ih =>
    have hc := h c (by simp)
    have hrest := ih (fun d hd => h d (by simp [hd]))
    show splitLines (c :: (rest ++ '\n' :: b)) = (c :: rest) :: splitLines b
    rw [splitLines_other c _ hc.1 hc.2, hrest]

theorem jsTrim_cons_ws (c : Char) (s : Str) (h : wsChar c = true) :
    jsTrim (c :: s) = jsTrim s := by
  unfold jsTrim
  rw [List.dropWhile_cons, if_pos h]

theorem jsTrim_ne_nil (c : Char) (s : Str) (h : wsChar c = false) :
    jsTrim (c :: s) ≠ [] := by
  intro hEq
  unfold jsTrim at hEq
  rw [List.dropWhile_cons, if_neg (by simp [h])] at hEq
  have h1 : (((c :: s).reverse).dropWhile wsChar) = [] := by
    have := congrArg List.reverse hEq
    simpa using this
  rw [List.dropWhile_eq_nil_iff] at h1
  have := h1 c (by simp)
  rw [h] at this
  exact absurd this (by simp)

theorem insertHdr_nil (k v : Str) : insertHdr [] k v = [(k, v)] := rfl

theorem insertHdr_mem (m : List (Str × Str)) (k v k1 v1 : Str)
    (h : (k, v) ∈ insertHdr m k1 v1) : (k, v) ∈ m ∨ k = k1 := by
  unfold insertHdr at h
  by_cases hc : m.any (fun p => decide (p.1 = k1)) = true
  · rw [if_pos hc] at h
    rcases List.mem_map.mp h with ⟨p, hp, hf⟩
    by_cases hpk : p.1 = k1
    · rw [if_pos hpk] at hf
      right
      have := congrArg Prod.fst hf
      simpa using this.symm
    · rw [if_neg hpk] at hf
      left
      rw [← hf]
      exact hp
  · rw [if_neg hc] at h
    rcases List.mem_append.mp h with h1 | h2
    · exact Or.inl h1
    · right
      have h3 : (k, v) = (k1, v1) := by simpa using h2
      have := congrArg Prod.fst h3
      simpa using this

theorem headerSaveStep_mem (st : Str × Str) (acc : List (Str × Str)) (k v : Str)
    (h : (k, v) ∈ headerSaveStep st acc) : (k, v) ∈ acc ∨ ∃ u, k = jsLower u := by
  unfold headerSaveStep at h
  by_cases hst : st.1 = []
  · rw [if_pos hst] at h
    exact Or.inl h
  · rw [if_neg hst] at h
    rcases insertHdr_mem _ _ _ _ _ h with h1 | h2
    · exact Or.inl h1
    · exact Or.inr ⟨st.1, h2⟩

theorem parseHeaderLines_keys (lines : List Str) :
    ∀ (st : Str × Str) (acc : List (Str × Str)) (k v : Str),
      (k, v) ∈ parseHeaderLines lines st acc → (k, v) ∈ acc ∨ ∃ u, k = jsLower u := by
  induction lines with
  | nil =>
    intro st acc k v h
    exact headerSaveStep_mem st acc k v h
  | cons line rest ih =>
    intro st acc k v h
    simp only [parseHeaderLines] at h
    by_cases hc : line.head? = some ' ' ∨ line.head? = some '\t'
    · rw [if_pos hc] at h
      exact ih _ _ _ _ h
    · rw [if_neg hc] at h
      rcases ih _ _ _ _ h with h1 | h2
      · exact headerSaveStep_mem st acc k v h1
      · exact Or.inr h2

theorem parseEmailHeaders_keys_lower (block k v : Str)
    (h : (k, v) ∈ parseEmailHeaders block) : jsLower k = k := by
  unfold parseEmailHeaders at h
  by_cases hb : block = []
  · rw [if_pos hb] at h
    exact absurd h (by simp)
  · rw [if_neg hb] at h
    rcases parseHeaderLines_keys _ _ _ _ _ h with h1 | ⟨u, h2⟩
    · exact absurd h1 (by simp)
    · rw [h2, jsLower_jsLower]

theorem headerKeyStep_new (n0 : Char) (name v : Str) (st : Str × Str)
    (hcolon : ':' ∉ n0 :: name) :
    headerKeyStep ((n0 :: name) ++ ':' :: v) st = (jsTrim (n0 :: name), jsTrim v) := by
  have hfind : ((n0 :: name) ++ ':' :: v).findIdx? (fun c => decide (c = ':')) =
      some (n0 :: name).length := by
    refine findIdx?_decomp _ _ _ _ ?_ (by decide)
    intro c hc
    simp only [decide_eq_false_iff_not]
    intro hEq
    exact hcolon (hEq ▸ hc)
  unfold headerKeyStep
  rw [hfind]
  have hlen : (n0 :: name).length > 0 := by simp
  show (if (n0 :: name).length > 0 then
      (jsTrim (((n0 :: name) ++ ':' :: v).take (n0 :: name).length),
       jsTrim (((n0 :: name) ++ ':' :: v).drop ((n0 :: name).length + 1)))
    else st) = (jsTrim (n0 :: name), jsTrim v)
  rw [if_pos hlen, take_before_marker, drop_after_marker]

theorem parseEmailHeaders_fold (n0 : Char) (name v w : Str)
    (hws : wsChar n0 = false)
    (hcolon : ':' ∉ n0 :: name)
    (hnl : ∀ c ∈ n0 :: name, c ≠ '\n' ∧ c ≠ '\r')
    (hv : ∀ c ∈ v, c ≠ '\n' ∧ c ≠ '\r')
    (hw : ∀ c ∈ w, c ≠ '\n' ∧ c ≠ '\r') :
    parseEmailHeaders ((n0 :: name) ++ ':' :: v ++ '\n' :: ' ' :: w) =
      [(jsLower (jsTrim (n0 :: name)), jsTrim v ++ ' ' :: jsTrim w)] := by
  have hsp : n0 ≠ ' ' := by
    intro hEq
    rw [hEq] at hws
    exact absurd hws (by decide)
  have htab : n0 ≠ '\t' := by
    intro hEq
    rw [hEq] at hws
    exact absurd hws (by decide)
  have hblock : (n0 :: name) ++ ':' :: v ++ '\n' :: ' ' :: w =
      ((n0 :: name) ++ ':' :: v) ++ '\n' :: (' ' :: w) := by
    simp
  have hsplit : splitLines (((n0 :: name) ++ ':' :: v) ++ '\n' :: (' ' :: w)) =
      ((n0 :: name) ++ ':' :: v) :: splitLines (' ' :: w) := by
    refine splitLines_append _ _ ?_
    intro c hc
    rcases List.mem_append.mp hc with h1 | h2
    · exact hnl c h1
    · rcases List.mem_cons.mp h2 with rfl | h3
      · exact ⟨by decide, by decide⟩
      · exact hv c h3
  have hsplit2 : splitLines (' ' :: w) = [' ' :: w] := by
    refine splitLines_no_nl _ ?_
    intro c hc
    rcases List.mem_cons.mp hc with rfl | h3
    · exact ⟨by decide, by decide⟩
    · exact hw c h3
  have hnotcont : ¬(((n0 :: name) ++ ':' :: v).head? = some ' ' ∨
      ((n0 :: name) ++ ':' :: v).head? = some '\t') := by
    have hhead : ((n0 :: name) ++ ':' :: v).head? = some n0 := rfl
    rw [hhead]
    rintro (hx | hx) <;> simp at hx
    · exact hsp hx
    · exact htab hx
  have hne : (n0 :: name) ++ ':' :: v ++ '\n' :: ' ' :: w ≠ [] := by
    simp
  unfold parseEmailHeaders
  rw [if_neg hne, hblock, hsplit, hsplit2]
  show parseHeaderLines (((n0 :: name) ++ ':' :: v) :: [' ' :: w]) ([], []) [] = _
  simp only [parseHeaderLines]
  rw [if_neg hnotcont]
  rw [headerKeyStep_new n0 name v ([], []) hcolon]
  have hcont2 : (' ' :: w).head? = some ' ' ∨ (' ' :: w).head? = some '\t' := Or.inl rfl
  rw [if_pos hcont2]
  show headerSaveStep (jsTrim (n0 :: name), jsTrim v ++ ' ' :: jsTrim (' ' :: w))
      (headerSaveStep ([], []) []) = _
  rw [jsTrim_cons_ws ' ' w (by decide)]
  unfold headerSaveStep
  rw [if_pos rfl, if_neg (jsTrim_ne_nil n0 name hws)]
  exact insertHdr_nil _ _

/-- C8: the header parser lowercases keys universally; it appends a
folded continuation line to the previous header's value joined by a
single space (stated for every header line `<name>:<value>` followed by
one continuation line, newline-free and with a non-whitespace,
colon-free name); the concrete block `"Subject: Hello\n World"` parses
to `subject ↦ Hello World`, the empty input parses to the empty map, and
a malformed line (no colon) is skipped without an exception. -/
theorem parseEmailHeaders_contract :
    parseEmailHeaders (str "Subject: Hello\n World") = [(str "subject", str "Hello World")] ∧
    parseEmailHeaders (str "") = [] ∧
    parseEmailHeaders (str "garbage line\nSubject: Hi") = [(str "subject", str "Hi")] ∧
    (∀ block k v : Str, (k, v) ∈ parseEmailHeaders block → jsLower k = k) ∧
    (∀ (n0 : Char) (name v w : Str), wsChar n0 = false → ':' ∉ n0 :: name →
      (∀ c ∈ n0 :: name, c ≠ '\n' ∧ c ≠ '\r') → (∀ c ∈ v, c ≠ '\n' ∧ c ≠ '\r') →
      (∀ c ∈ w, c ≠ '\n' ∧ c ≠ '\r') →
      parseEmailHeaders ((n0 :: name) ++ ':' :: v ++ '\n' :: ' ' :: w) =
        [(jsLower (jsTrim (n0 :: name)), jsTrim v ++ ' ' :: jsTrim w)]) :=
  ⟨by decide, by decide, by decide, parseEmailHeaders_keys_lower, parseEmailHeaders_fold⟩

/-- Witness for C8's universally quantified parts at the concrete block
of the claim: `"Subject: Hello\n World"` is exactly
`('S' :: "ubject") ++ ':' :: " Hello" ++ '\n' :: ' ' :: "World"`, the
fold yields `subject ↦ Hello World`, and the key of the parsed block is
lowercase-fixed. -/
theorem parseEmailHeaders_contract_w :
    parseEmailHeaders (('S' :: str "ubject") ++ ':' :: str " Hello" ++ '\n' :: ' ' :: str "World") =
      [(jsLower (jsTrim ('S' :: str "ubject")), jsTrim (str " Hello") ++ ' ' :: jsTrim (str "World"))] ∧
    ('S' :: str "ubject") ++ ':' :: str " Hello" ++ '\n' :: ' ' :: str "World" =
      str "Subject: Hello\n World" ∧
    (jsLower (jsTrim ('S' :: str "ubject")), jsTrim (str " Hello") ++ ' ' :: jsTrim (str "World")) =
      (str "subject", str "Hello World") ∧
    jsLower (str "subject") = str "subject" :=
  ⟨(parseEmailHeaders_contract).2.2.2.2 'S' (str "ubject") (str " Hello") (str "World")
      (by decide) (by decide) (by decide) (by decide) (by decide),
   by decide, by decide,
   (parseEmailHeaders_contract).2.2.2.1 (str "Subject: Hello\n World") (str "subject")
      (str "Hello World") (by decide)⟩

end EmailService
